import Mathlib

/-
Verification of the FinXchange offline transaction queue and webhook
reconciliation flow.

The development shallowly embeds, as executable Lean definitions:
 * the service worker's request interception (sw.js: `handleAPIGet`,
   `handleAPIRequest`, the cacheable / non-cacheable endpoint lists),
 * the server-side Squad webhook handler and the storage layer it calls
   (routes.ts: `POST /api/webhooks/squad`; storage.ts: `getTransactions`,
   `getWallet`, `updateWalletBalance`, `updateTransaction`),
 * the client-side IndexedDB queue (offline-storage.ts: `OfflineStorage`)
   and the queue hook built on it (use-offline-queue.tsx:
   `addTransactionToQueue`, `processQueuedTransactions`,
   `retryFailedTransaction`, `removeTransaction`).

Asynchrony is modelled by explicit state passing: every handler takes the
relevant state (cache, queue, database) and the outcome of its network
calls as arguments and returns the new state.  JavaScript numbers are
modelled by exact rationals (IEEE-754 rounding is out of scope); decimal
columns stay strings exactly as in the database schema.
-/

set_option autoImplicit false

namespace FinXchange

/-! ### JavaScript string primitives used by the embedded code -/

/-- Models `String.prototype.startsWith`. -/
def strStartsWith (s pre : String) : Bool :=
  pre.data.isPrefixOf s.data

/-- Models `String.prototype.replace(pat, repl)` with a string pattern,
which replaces only the first occurrence. -/
def replaceFirst (s pat repl : String) : String :=
  match s.splitOn pat with
  | [] => s
  | [_] => s
  | a :: rest => a ++ repl ++ String.intercalate pat rest

def digitsToNat (cs : List Char) : Nat :=
  cs.foldl (fun n c => n * 10 + (c.toNat - Char.toNat '0')) 0

/-- Models `parseFloat` on the well-formed decimal strings stored in the
`decimal` database columns (optional leading minus sign, digits, optional
fraction).  Values are exact rationals. -/
def parseDec (s : String) : ℚ :=
  let stripped := if strStartsWith s "-" then s.drop 1 else s
  let v : ℚ :=
    match stripped.splitOn "." with
    | [] => 0
    | [intPart] => (digitsToNat intPart.data : ℚ)
    | intPart :: fracPart :: _ =>
        (digitsToNat intPart.data : ℚ)
          + (digitsToNat fracPart.data : ℚ) / ((10 : ℚ) ^ fracPart.length)
  if strStartsWith s "-" then -v else v

def padLeftZeros (s : String) (n : Nat) : String :=
  String.mk (List.replicate (n - s.length) '0') ++ s

/-- Models `Number.prototype.toString` for values with a finite decimal
expansion (the only values the embedded balance arithmetic produces). -/
def showDec (q : ℚ) : String :=
  let sign := if q < 0 then "-" else ""
  let n := q.num.natAbs
  let d := q.den
  if d = 1 then
    sign ++ toString n
  else
    match (List.range 30).find? (fun k => 10 ^ k % d == 0) with
    | some k =>
        let scaled := n * ((10 : Nat) ^ k / d)
        sign ++ toString (scaled / 10 ^ k) ++ "."
          ++ padLeftZeros (toString (scaled % 10 ^ k)) k
    | none => sign ++ toString n ++ "/" ++ toString d

/-! ### Service worker: endpoint classification (sw.js lines 17-35) -/

/-- API endpoints that can be cached (sw.js `CACHEABLE_API_ENDPOINTS`). -/
def CACHEABLE_API_ENDPOINTS : List String :=
  ["/api/auth/me", "/api/wallet", "/api/virtual-account", "/api/banks",
   "/api/beneficiaries", "/api/transactions"]

/-- API endpoints that should never be cached (sw.js
`NON_CACHEABLE_ENDPOINTS`). -/
def NON_CACHEABLE_ENDPOINTS : List String :=
  ["/api/auth/login", "/api/auth/logout", "/api/auth/register",
   "/api/auth/verify-otp", "/api/transfer/", "/api/webhooks/"]

/-- `CACHEABLE_API_ENDPOINTS.some(endpoint => pathname.startsWith(endpoint))`. -/
def isCacheableEndpoint (pathname : String) : Bool :=
  CACHEABLE_API_ENDPOINTS.any fun endpoint => strStartsWith pathname endpoint

/-- `NON_CACHEABLE_ENDPOINTS.some(endpoint => pathname.startsWith(endpoint))`. -/
def isNonCacheableEndpoint (pathname : String) : Bool :=
  NON_CACHEABLE_ENDPOINTS.any fun endpoint => strStartsWith pathname endpoint

/-! ### Service worker: responses and caches -/

/-- The JSON object shapes the worker synthesizes. -/
structure JsonBody where
  success : Option Bool
  error : Option String
  message : Option String
  offline : Option Bool
deriving DecidableEq

/-- sw.js lines 221-228: the synthetic success-with-caveat body. -/
def queuedOfflineBody : JsonBody :=
  { success := some true, error := none,
    message := some "Transaction queued for processing when back online.",
    offline := some true }

/-- sw.js lines 121-127 and 232-238: the hard-failure body. -/
def networkUnavailableBody : JsonBody :=
  { success := none, error := some "Network unavailable",
    message := some "This request requires an internet connection.",
    offline := none }

/-- sw.js lines 180-186: offline read miss body. -/
def offlineNotCachedBody : JsonBody :=
  { success := none, error := some "Offline",
    message := some "You are offline and this data is not cached.",
    offline := none }

inductive RespBody where
  /-- A body that came back from the network, kept opaque. -/
  | upstream (payload : String)
  /-- A JSON body synthesized by the worker. -/
  | obj (body : JsonBody)
deriving DecidableEq

structure SWResponse where
  status : Nat
  body : RespBody
deriving DecidableEq

/-- `Response.ok`: status in the range 200-299. -/
def SWResponse.isOk (r : SWResponse) : Bool :=
  200 ≤ r.status && r.status < 300

/-- An API cache entry: the stored response plus the injected
`sw-cache-date` header (absent when the entry was stored without it). -/
structure CachedEntry where
  resp : SWResponse
  swCacheDate : Option Nat
deriving DecidableEq

/-- Result of one intercepted GET: the response handed to the caller,
whether `fetch` was invoked, and the cache entry for the request after
the call. -/
structure APIGetOutcome where
  response : SWResponse
  usedNetwork : Bool
  cacheAfter : Option CachedEntry
deriving DecidableEq

/-- sw.js lines 138-145: the entry's `sw-cache-date` header exists and is
less than 5 minutes old (`Date.now() - parseInt(cacheDate) < 5*60*1000`). -/
def cacheFresh (e : CachedEntry) (now : Nat) : Bool :=
  match e.swCacheDate with
  | some d => decide ((now : Int) - (d : Int) < 5 * 60 * 1000)
  | none => false

/-- sw.js lines 148-187: network fetch with caching of ok responses and
fallback to any cached copy on network failure. -/
def fetchAndCacheAPI (cached : Option CachedEntry) (now : Nat)
    (network : Option SWResponse) : APIGetOutcome :=
  match network with
  | some r =>
      if r.isOk then ⟨r, true, some ⟨r, some now⟩⟩ else ⟨r, true, cached⟩
  | none =>
      match cached with
      | some e => ⟨e.resp, true, some e⟩
      | none => ⟨⟨503, .obj offlineNotCachedBody⟩, true, none⟩

/-- sw.js `handleAPIGet` (lines 107-188).  `network = none` models a
`fetch` that throws (network unreachable). -/
def handleAPIGet (pathname : String) (cached : Option CachedEntry) (now : Nat)
    (network : Option SWResponse) : APIGetOutcome :=
  if isCacheableEndpoint pathname then
    match cached with
    | some e =>
        if cacheFresh e now then ⟨e.resp, false, some e⟩
        else fetchAndCacheAPI cached now network
    | none => fetchAndCacheAPI cached now network
  else
    match network with
    | some r => ⟨r, true, cached⟩
    | none => ⟨⟨503, .obj networkUnavailableBody⟩, true, cached⟩

/-- The record `storeOfflineTransaction` persists (sw.js lines 214-219 and
340-343): endpoint, method, parsed JSON body (kept opaque), timestamp,
plus the generated `sw_...` id. -/
structure SWQueueRecord where
  endpoint : String
  method : String
  body : String
  timestamp : Nat
  id : String
deriving DecidableEq

structure APIWriteOutcome where
  response : SWResponse
  queueAfter : List SWQueueRecord
deriving DecidableEq

/-- sw.js `handleAPIRequest` (lines 191-240): non-GET `/api/` requests.
`network = none` models a `fetch` that throws.  `freshId` is the id
`storeOfflineTransaction` would generate. -/
def handleAPIRequest (pathname method body : String) (network : Option SWResponse)
    (now : Nat) (freshId : String) (queue : List SWQueueRecord) : APIWriteOutcome :=
  let nonCacheable := isNonCacheableEndpoint pathname
  match network with
  | some r => ⟨r, queue⟩
  | none =>
      if strStartsWith pathname "/api/transfer/" && !nonCacheable then
        ⟨⟨202, .obj queuedOfflineBody⟩,
         queue ++ [⟨pathname, method, body, now, freshId⟩]⟩
      else
        ⟨⟨503, .obj networkUnavailableBody⟩, queue⟩

/-! ### Server: relevant rows of the `transactions` and `wallets` tables
(schema.ts), projected to the columns the webhook flow touches.  The
`jsonb` columns (`recipientDetails`, `metadata`) and audit timestamps do
not participate and are omitted. -/

structure Transaction where
  id : String
  userId : String
  type : String
  amount : String
  description : String
  reference : String
  status : String
  squadReference : Option String
  createdAt : Nat
deriving DecidableEq

structure Wallet where
  id : String
  userId : String
  /-- `decimal` column, nullable in practice (`wallet.balance` is
  truthiness-checked by the handler). -/
  balance : Option String
deriving DecidableEq

structure ServerState where
  transactions : List Transaction
  wallets : List Wallet
deriving DecidableEq

/-- Ordering used by `orderBy(desc(transactions.createdAt))`. -/
def createdDesc (a b : Transaction) : Prop :=
  b.createdAt ≤ a.createdAt

instance : DecidableRel createdDesc :=
  fun a b => Nat.decLe b.createdAt a.createdAt

instance : IsTotal Transaction createdDesc :=
  ⟨fun a b => (Nat.le_total b.createdAt a.createdAt).elim Or.inl Or.inr⟩

instance : IsTrans Transaction createdDesc :=
  ⟨fun _ _ _ h1 h2 => Nat.le_trans h2 h1⟩

namespace DatabaseStorage

/-- storage.ts `getTransactions` (lines 145-152): rows with
`transactions.userId = userId`, newest first, limited. -/
def getTransactions (s : ServerState) (userId : String) (limit : Nat) :
    List Transaction :=
  (List.insertionSort createdDesc
    (s.transactions.filter fun t => t.userId == userId)).take limit

/-- storage.ts `getWallet` (lines 96-99). -/
def getWallet (s : ServerState) (userId : String) : Option Wallet :=
  s.wallets.find? fun w => w.userId == userId

/-- storage.ts `updateWalletBalance` (lines 109-116). -/
def updateWalletBalance (s : ServerState) (userId balance : String) : ServerState :=
  { s with wallets :=
      s.wallets.map fun w =>
        if w.userId == userId then { w with balance := some balance } else w }

/-- storage.ts `updateTransaction` (lines 167-174), restricted to the
`status` update the webhook performs. -/
def updateTransaction (s : ServerState) (id status : String) : ServerState :=
  { s with transactions :=
      s.transactions.map fun t =>
        if t.id == id then { t with status := status } else t }

end DatabaseStorage

structure WebhookOutcome where
  state : ServerState
  httpStatus : Nat
  message : String
deriving DecidableEq

/-- routes.ts `POST /api/webhooks/squad` (lines 596-631).  Looks the
reference up in `storage.getTransactions("", 1000)` — i.e. among the
transactions whose `userId` is the empty string — flips the status and,
on `failed`, credits back the absolute amount; always answers 200. -/
def squadWebhook (s : ServerState)
    (transaction_reference transaction_status : String) : WebhookOutcome :=
  let transactions := DatabaseStorage.getTransactions s "" 1000
  match transactions.find? (fun t => t.squadReference == some transaction_reference) with
  | none => ⟨s, 200, "Webhook processed"⟩
  | some t =>
      let status : String :=
        if transaction_status == "success" then "success"
        else if transaction_status == "failed" then "failed"
        else "pending"
      let s1 :=
        if transaction_status == "failed" then
          match DatabaseStorage.getWallet s t.userId with
          | some w =>
              match w.balance with
              | some b =>
                  if b == "" then s
                  else
                    let refundAmount :=
                      showDec (parseDec b + parseDec (replaceFirst t.amount "-" ""))
                    DatabaseStorage.updateWalletBalance s t.userId refundAmount
              | none => s
          | none => s
        else s
      ⟨DatabaseStorage.updateTransaction s1 t.id status, 200, "Webhook processed"⟩

/-! ### Client queue: types (use-offline-queue.tsx lines 7-16) -/

inductive TxType where
  | bank_transfer
  | wallet_transfer
  | airtime
  | data
deriving DecidableEq

inductive TxStatus where
  | queued
  | processing
  | failed
deriving DecidableEq

/-- `OfflineTransaction` as declared in use-offline-queue.tsx.  The opaque
`recipientDetails` and `metadata` payloads are kept as strings. -/
structure OfflineTransaction where
  id : String
  type : TxType
  amount : String
  description : String
  recipientDetails : String
  metadata : Option String
  timestamp : Nat
  status : TxStatus
deriving DecidableEq

/-- The row actually written to the `offlineTransactions` object store:
the transaction spread together with the owning `userId`
(offline-storage.ts line 88). -/
structure StoredTransaction where
  id : String
  type : TxType
  amount : String
  description : String
  recipientDetails : String
  metadata : Option String
  timestamp : Nat
  status : TxStatus
  userId : String
deriving DecidableEq

/-- `{ ...transaction, userId }`. -/
def withUserId (t : OfflineTransaction) (u : String) : StoredTransaction :=
  ⟨t.id, t.type, t.amount, t.description, t.recipientDetails, t.metadata,
   t.timestamp, t.status, u⟩

/-- `({ userId, ...transaction }) => transaction` (offline-storage.ts
line 107). -/
def stripUserId (r : StoredTransaction) : OfflineTransaction :=
  ⟨r.id, r.type, r.amount, r.description, r.recipientDetails, r.metadata,
   r.timestamp, r.status⟩

/-- The IndexedDB-backed store: either it cannot be opened (private
browsing, blocked upgrade, ...) or it holds the rows of the
`offlineTransactions` object store. -/
inductive StoreState where
  | unavailable
  | available (records : List StoredTransaction)
deriving DecidableEq

/-- Newest-first ordering used by
`transactions.sort((a, b) => b.timestamp - a.timestamp)`. -/
def tsGE (a b : OfflineTransaction) : Prop :=
  b.timestamp ≤ a.timestamp

instance : DecidableRel tsGE :=
  fun a b => Nat.decLe b.timestamp a.timestamp

instance : IsTotal OfflineTransaction tsGE :=
  ⟨fun a b => (Nat.le_total b.timestamp a.timestamp).elim Or.inl Or.inr⟩

instance : IsTrans OfflineTransaction tsGE :=
  ⟨fun _ _ _ h1 h2 => Nat.le_trans h2 h1⟩

def sortByTimestampDesc (l : List OfflineTransaction) : List OfflineTransaction :=
  List.insertionSort tsGE l

namespace OfflineStorage

/-- offline-storage.ts `addOfflineTransaction` (lines 80-94).  The store
rejects when it cannot be opened, and `store.add` rejects when a row with
the same primary key `id` already exists (IndexedDB `add` never
overwrites); the existing rows are untouched in both error cases. -/
def addOfflineTransaction (s : StoreState) (userId : String)
    (t : OfflineTransaction) : Except String StoreState :=
  match s with
  | .unavailable => .error "Failed to open IndexedDB"
  | .available records =>
      if records.any (fun r => r.id == t.id) then
        .error "Failed to add offline transaction"
      else
        .ok (.available (records ++ [withUserId t userId]))

/-- offline-storage.ts `getOfflineTransactions` (lines 96-114): rows of
the `userId` index entry, stripped of `userId`, sorted newest-first.
Rejects when the store cannot be opened. -/
def getOfflineTransactions (s : StoreState) (userId : String) :
    Except String (List OfflineTransaction) :=
  match s with
  | .unavailable => .error "Failed to open IndexedDB"
  | .available records =>
      .ok (sortByTimestampDesc
        ((records.filter fun r => r.userId == userId).map stripUserId))

/-- offline-storage.ts `removeOfflineTransaction` (lines 144-156):
`store.delete` is idempotent — deleting an absent id succeeds. -/
def removeOfflineTransaction (s : StoreState) (transactionId : String) :
    Except String StoreState :=
  match s with
  | .unavailable => .error "Failed to open IndexedDB"
  | .available records =>
      .ok (.available (records.filter fun r => r.id != transactionId))

end OfflineStorage

/-! ### Client queue hook (use-offline-queue.tsx) -/

/-- The caller-supplied part of a new queue entry
(`Omit<OfflineTransaction, 'id' | 'timestamp' | 'status'>`). -/
structure NewTransactionInput where
  type : TxType
  amount : String
  description : String
  recipientDetails : String
  metadata : Option String
deriving DecidableEq

/-- use-offline-queue.tsx lines 76-81: the queued record built by
`addTransactionToQueue` — generated `offline_...` id, current timestamp,
status `queued`. -/
def mkQueuedTransaction (input : NewTransactionInput) (freshId : String)
    (now : Nat) : OfflineTransaction :=
  ⟨freshId, input.type, input.amount, input.description,
   input.recipientDetails, input.metadata, now, .queued⟩

/-- use-offline-queue.tsx `addTransactionToQueue` (lines 73-99): persist
to the durable store, then append to the in-memory list; on a storage
error the catch block only toasts and the in-memory list is unchanged. -/
def addTransactionToQueue (store : StoreState) (mem : List OfflineTransaction)
    (userId : String) (input : NewTransactionInput) (freshId : String)
    (now : Nat) : StoreState × List OfflineTransaction :=
  let queuedTransaction := mkQueuedTransaction input freshId now
  match OfflineStorage.addOfflineTransaction store userId queuedTransaction with
  | .ok store1 => (store1, mem ++ [queuedTransaction])
  | .error _ => (store, mem)

/-- use-offline-queue.tsx `loadQueuedTransactions` (lines 62-71): replace
the in-memory list on success; the catch block only logs, leaving the
previous in-memory list in place. -/
def loadQueuedTransactions (store : StoreState) (mem : List OfflineTransaction)
    (userId : String) : List OfflineTransaction :=
  match OfflineStorage.getOfflineTransactions store userId with
  | .ok queue => queue
  | .error _ => mem

/-- Outcome of one replay attempt inside the drain loop's `try` block:
`ok` — the fetch resolved with `response.ok` and the durable-store delete
succeeded; `httpError` — the fetch resolved but `response.ok` was false;
`exception` — the fetch (or any other awaited step) threw. -/
inductive NetOutcome where
  | ok
  | httpError
  | exception
deriving DecidableEq

/-- use-offline-queue.tsx lines 116-130: endpoint selected per type. -/
def drainEndpoint : TxType → String
  | .bank_transfer => "/api/transfer/bank"
  | .wallet_transfer => "/api/transfer/wallet"
  | .airtime => "/api/bills/purchase"
  | .data => "/api/bills/purchase"

/-- `prev.map(t => t.id === i ? { ...t, status } : t)`. -/
def markStatus (l : List OfflineTransaction) (i : String) (st : TxStatus) :
    List OfflineTransaction :=
  l.map fun t => if t.id == i then { t with status := st } else t

/-- `prev.filter(t => t.id !== i)`. -/
def removeById (l : List OfflineTransaction) (i : String) :
    List OfflineTransaction :=
  l.filter fun t => t.id != i

/-- The body of the `for (const transaction of queuedTransactions)` loop
in `processQueuedTransactions` (lines 106-180): iterate over the list
captured at call time while the live state evolves.  Returns the final
in-memory state and the records attempted, in iteration order. -/
def drainPass (net : OfflineTransaction → NetOutcome) :
    List OfflineTransaction → List OfflineTransaction →
    List OfflineTransaction × List OfflineTransaction
  | state, [] => (state, [])
  | state, t :: rest =>
      if t.status == .queued then
        let afterMark := markStatus state t.id .processing
        let afterOutcome :=
          match net t with
          | .ok => removeById afterMark t.id
          | .httpError => markStatus afterMark t.id .failed
          | .exception => markStatus afterMark t.id .failed
        let next := drainPass net afterOutcome rest
        (next.1, t :: next.2)
      else
        drainPass net state rest

/-- use-offline-queue.tsx `processQueuedTransactions` (lines 101-187),
one pass over the queue.  The successful branch also deletes the record
from the durable store; `NetOutcome.ok` stands for that whole branch
completing.  The guard clauses (offline, already processing) keep the
state unchanged and are modelled by not invoking the pass. -/
def processQueuedTransactions (net : OfflineTransaction → NetOutcome)
    (mem : List OfflineTransaction) :
    List OfflineTransaction × List OfflineTransaction :=
  drainPass net mem mem

/-- use-offline-queue.tsx `retryFailedTransaction` (lines 189-197):
re-marks the named record `queued`; the record's current status is not
inspected. -/
def retryFailedTransaction (mem : List OfflineTransaction) (transactionId : String) :
    List OfflineTransaction :=
  mem.map fun t =>
    if t.id == transactionId then { t with status := .queued } else t

/-- use-offline-queue.tsx `removeTransaction` (lines 199-218): delete
from the durable store, then drop from the in-memory list; on a storage
error the catch block only toasts and both are unchanged. -/
def removeTransaction (store : StoreState) (mem : List OfflineTransaction)
    (transactionId : String) : StoreState × List OfflineTransaction :=
  match OfflineStorage.removeOfflineTransaction store transactionId with
  | .ok store1 => (store1, removeById mem transactionId)
  | .error _ => (store, mem)

/-- The status-transition discipline asserted by the specification's
queue invariant: unchanged, queued→processing, processing→deleted,
processing→failed, or failed→queued (`none` stands for deletion). -/
def specQueueStep (pre : TxStatus) (post : Option TxStatus) : Bool :=
  post == some pre ||
  (pre == .queued && post == some .processing) ||
  (pre == .processing && post == none) ||
  (pre == .processing && post == some .failed) ||
  (pre == .failed && post == some .queued)

/-! ### Concrete fixtures used by witnesses and counterexamples -/

/-- A server state holding one pending, Squad-referenced, debited
bank-transfer transaction of user `u-1` and that user's wallet. -/
def exampleServerState : ServerState :=
  ⟨[⟨"tx-1", "u-1", "bank_transfer", "-500", "Transfer to Ada", "TXN_1",
     "pending", some "SQ_1", 1⟩],
   [⟨"w-1", "u-1", some "1000"⟩]⟩

/-- An in-memory queue of three queued records, enqueued in order:
a bank transfer, a wallet transfer and an airtime purchase. -/
def exampleQueue : List OfflineTransaction :=
  [⟨"offline_1_a", .bank_transfer, "500", "rent", "acct-1", none, 1, .queued⟩,
   ⟨"offline_2_b", .wallet_transfer, "200", "lunch", "phone-2", none, 2, .queued⟩,
   ⟨"offline_3_c", .airtime, "100", "airtime", "phone-3", none, 3, .queued⟩]

/-- A network where the wallet transfer fails with an HTTP error and the
other requests succeed. -/
def exampleNet : OfflineTransaction → NetOutcome :=
  fun t => if t.id == "offline_2_b" then .httpError else .ok

/-- A durable store holding one row of user `u-1`. -/
def exampleStoreRows : List StoredTransaction :=
  [⟨"offline_0_z", .airtime, "100", "data bundle", "phone-0", none, 1, .queued, "u-1"⟩]

/-- One record stuck in `processing` (e.g. after an interrupted drain). -/
def exampleProcessing : OfflineTransaction :=
  ⟨"offline_9_p", .bank_transfer, "700", "tv bill", "meter-1", none, 4, .processing⟩

/-- Caller input for a new bank-transfer queue entry. -/
def exampleInput : NewTransactionInput :=
  ⟨.bank_transfer, "500", "rent", "acct-001", none⟩

/-! ### Helper lemmas -/

theorem transferPrefix_isNonCacheable (pathname : String)
    (h : strStartsWith pathname "/api/transfer/" = true) :
    isNonCacheableEndpoint pathname = true := by
  apply List.any_eq_true.mpr
  exact ⟨"/api/transfer/", by simp [NON_CACHEABLE_ENDPOINTS], h⟩

theorem markStatus_map_id (l : List OfflineTransaction) (i : String)
    (st : TxStatus) :
    (markStatus l i st).map (fun t => t.id) = l.map (fun t => t.id) := by
  unfold markStatus
  rw [List.map_map]
  apply List.map_congr_left
  intro t _
  by_cases h : t.id == i <;> simp [Function.comp, h]

theorem mem_markStatus_of_ne (l : List OfflineTransaction) (i : String)
    (st : TxStatus) (x : OfflineTransaction) (hx : x ∈ l) (hne : x.id ≠ i) :
    x ∈ markStatus l i st := by
  unfold markStatus
  have h := List.mem_map_of_mem
    (fun t => if t.id == i then { t with status := st } else t) hx
  simpa [beq_eq_false_iff_ne.mpr hne] using h

theorem self_mem_markStatus (l : List OfflineTransaction)
    (x : OfflineTransaction) (hx : x ∈ l) (st : TxStatus) :
    { x with status := st } ∈ markStatus l x.id st := by
  unfold markStatus
  have h := List.mem_map_of_mem
    (fun t => if t.id == x.id then { t with status := st } else t) hx
  simpa using h

theorem mem_removeById (l : List OfflineTransaction) (i : String)
    (x : OfflineTransaction) (hx : x ∈ l) (hne : x.id ≠ i) :
    x ∈ removeById l i := by
  unfold removeById
  exact List.mem_filter.mpr ⟨hx, by simpa using hne⟩

theorem removeById_spec (l : List OfflineTransaction) (i : String)
    (x : OfflineTransaction) (hx : x ∈ removeById l i) : x ∈ l ∧ x.id ≠ i := by
  unfold removeById at hx
  have h := List.mem_filter.mp hx
  exact ⟨h.1, by simpa using h.2⟩

theorem removeById_map_id_sublist (l : List OfflineTransaction) (i : String) :
    List.Sublist ((removeById l i).map fun t => t.id) (l.map fun t => t.id) :=
  (List.filter_sublist l).map _

theorem drainPass_attempts (net : OfflineTransaction → NetOutcome)
    (l : List OfflineTransaction) :
    ∀ s, (drainPass net s l).2 = l.filter (fun t => t.status == TxStatus.queued) := by
  induction l with
  | nil => intro s; rfl
  | cons t rest ih =>
      intro s
      by_cases h : t.status == TxStatus.queued
      · cases hn : net t <;> simp [drainPass, h, hn, List.filter_cons, ih]
      · simp [drainPass, h, List.filter_cons, ih]

theorem drainPass_ids_sublist (net : OfflineTransaction → NetOutcome)
    (l : List OfflineTransaction) :
    ∀ s, List.Sublist ((drainPass net s l).1.map fun t => t.id)
      (s.map fun t => t.id) := by
  induction l with
  | nil => intro s; exact List.Sublist.refl _
  | cons t rest ih =>
      intro s
      by_cases h : t.status == TxStatus.queued
      · cases hn : net t
        · simp only [drainPass, h, if_true, hn]
          refine (ih _).trans ?_
          refine (removeById_map_id_sublist _ _).trans ?_
          rw [markStatus_map_id]
        · simp only [drainPass, h, if_true, hn]
          refine (ih _).trans ?_
          rw [markStatus_map_id, markStatus_map_id]
        · simp only [drainPass, h, if_true, hn]
          refine (ih _).trans ?_
          rw [markStatus_map_id, markStatus_map_id]
      · simp only [drainPass, h, if_false]
        exact ih s

theorem drainPass_ids_nodup (net : OfflineTransaction → NetOutcome)
    (l s : List OfflineTransaction) (hs : (s.map fun t => t.id).Nodup) :
    ((drainPass net s l).1.map fun t => t.id).Nodup :=
  (drainPass_ids_sublist net l s).nodup hs

theorem mem_drainPass_of_untargeted (net : OfflineTransaction → NetOutcome)
    (l : List OfflineTransaction) :
    ∀ s (x : OfflineTransaction), x ∈ s →
      (∀ t ∈ l, t.status = TxStatus.queued → t.id ≠ x.id) →
      x ∈ (drainPass net s l).1 := by
  induction l with
  | nil => intro s x hx _; exact hx
  | cons t rest ih =>
      intro s x hx h
      by_cases hq : t.status == TxStatus.queued
      · have htx : t.id ≠ x.id := h t (List.mem_cons_self t rest) (by simpa using hq)
        have hx1 : x ∈ markStatus s t.id .processing :=
          mem_markStatus_of_ne s t.id .processing x hx (fun he => htx he.symm)
        have hrest : ∀ u ∈ rest, u.status = TxStatus.queued → u.id ≠ x.id :=
          fun u hu => h u (List.mem_cons_of_mem t hu)
        cases hn : net t
        · simp only [drainPass, hq, if_true, hn]
          exact ih _ x
            (mem_removeById _ t.id x hx1 (fun he => htx he.symm)) hrest
        · simp only [drainPass, hq, if_true, hn]
          exact ih _ x
            (mem_markStatus_of_ne _ t.id .failed x hx1 (fun he => htx he.symm)) hrest
        · simp only [drainPass, hq, if_true, hn]
          exact ih _ x
            (mem_markStatus_of_ne _ t.id .failed x hx1 (fun he => htx he.symm)) hrest
      · simp only [drainPass, hq, if_false]
        exact ih s x hx (fun u hu => h u (List.mem_cons_of_mem t hu))

theorem drainPass_id_absent (net : OfflineTransaction → NetOutcome)
    (l s : List OfflineTransaction) (i : String)
    (h : ∀ x ∈ s, x.id ≠ i) :
    ∀ r ∈ (drainPass net s l).1, r.id ≠ i := by
  intro r hr
  have hsub := drainPass_ids_sublist net l s
  have hmem : r.id ∈ s.map (fun t => t.id) :=
    hsub.subset (List.mem_map_of_mem _ hr)
  obtain ⟨y, hy, hxy⟩ := List.mem_map.mp hmem
  exact hxy ▸ h y hy

theorem drainPass_outcomes (net : OfflineTransaction → NetOutcome)
    (l : List OfflineTransaction) :
    ∀ s, ((l.map fun t => t.id).Nodup) →
      (∀ t ∈ l, t.status = TxStatus.queued → t ∈ s) →
      ∀ t ∈ l, t.status = TxStatus.queued →
        (net t = .ok → ∀ r ∈ (drainPass net s l).1, r.id ≠ t.id) ∧
        (net t ≠ .ok →
          { t with status := TxStatus.failed } ∈ (drainPass net s l).1) := by
  induction l with
  | nil => intro s _ _ t ht; cases ht
  | cons a rest ih =>
      intro s hnodup hin t ht htq
      rw [List.map_cons, List.nodup_cons] at hnodup
      have hrest_nodup := hnodup.2
      have ha_not : a.id ∉ rest.map fun t => t.id := hnodup.1
      rcases List.mem_cons.mp ht with rfl | htrest
      · -- t is the head record of the iteration list
        have haq : (t.status == TxStatus.queued) = true := by simp [htq]
        have hts : t ∈ s := hin t (List.mem_cons_self t rest) htq
        constructor
        · intro hok r hr
          simp only [drainPass, haq, if_true, hok] at hr
          have habsent : ∀ x ∈ removeById (markStatus s t.id .processing) t.id,
              x.id ≠ t.id := fun x hx => (removeById_spec _ _ x hx).2
          exact drainPass_id_absent net rest _ t.id habsent r hr
        · intro hnok
          cases hn : net t with
          | ok => exact absurd hn hnok
          | httpError =>
              simp only [drainPass, haq, if_true, hn]
              have h1 : { t with status := TxStatus.processing }
                  ∈ markStatus s t.id .processing := self_mem_markStatus s t hts _
              have h2 : { t with status := TxStatus.failed }
                  ∈ markStatus (markStatus s t.id .processing) t.id .failed := by
                have := self_mem_markStatus (markStatus s t.id .processing)
                  { t with status := TxStatus.processing } h1 TxStatus.failed
                simpa using this
              refine mem_drainPass_of_untargeted net rest _ _ h2 ?_
              intro u hu _ hue
              exact ha_not (by simpa [hue] using List.mem_map_of_mem (fun t => t.id) hu)
          | exception =>
              simp only [drainPass, haq, if_true, hn]
              have h1 : { t with status := TxStatus.processing }
                  ∈ markStatus s t.id .processing := self_mem_markStatus s t hts _
              have h2 : { t with status := TxStatus.failed }
                  ∈ markStatus (markStatus s t.id .processing) t.id .failed := by
                have := self_mem_markStatus (markStatus s t.id .processing)
                  { t with status := TxStatus.processing } h1 TxStatus.failed
                simpa using this
              refine mem_drainPass_of_untargeted net rest _ _ h2 ?_
              intro u hu _ hue
              exact ha_not (by simpa [hue] using List.mem_map_of_mem (fun t => t.id) hu)
      · -- t occurs later in the iteration list
        have htid : t.id ≠ a.id := by
          intro he
          exact ha_not (he ▸ List.mem_map_of_mem (fun t => t.id) htrest)
        by_cases haq : a.status == TxStatus.queued
        · -- the head is attempted first; t survives it unchanged
          have has : a ∈ s := hin a (List.mem_cons_self a rest) (by simpa using haq)
          cases hn : net a with
          | ok =>
              have hstep : ∀ u ∈ rest, u.status = TxStatus.queued →
                  u ∈ removeById (markStatus s a.id .processing) a.id := by
                intro u hu huq
                have hune : u.id ≠ a.id := by
                  intro he
                  exact ha_not (he ▸ List.mem_map_of_mem (fun t => t.id) hu)
                exact mem_removeById _ a.id u
                  (mem_markStatus_of_ne s a.id .processing u
                    (hin u (List.mem_cons_of_mem a hu) huq) hune) hune
              have := ih _ hrest_nodup hstep t htrest htq
              constructor
              · intro hok r hr
                refine (this.1 hok) r ?_
                simpa only [drainPass, haq, if_true, hn] using hr
              · intro hnok
                have h3 := this.2 hnok
                simpa only [drainPass, haq, if_true, hn] using h3
          | httpError =>
              have hstep : ∀ u ∈ rest, u.status = TxStatus.queued →
                  u ∈ markStatus (markStatus s a.id .processing) a.id .failed := by
                intro u hu huq
                have hune : u.id ≠ a.id := by
                  intro he
                  exact ha_not (he ▸ List.mem_map_of_mem (fun t => t.id) hu)
                exact mem_markStatus_of_ne _ a.id .failed u
                  (mem_markStatus_of_ne s a.id .processing u
                    (hin u (List.mem_cons_of_mem a hu) huq) hune) hune
              have := ih _ hrest_nodup hstep t htrest htq
              constructor
              · intro hok r hr
                refine (this.1 hok) r ?_
                simpa only [drainPass, haq, if_true, hn] using hr
              · intro hnok
                have h3 := this.2 hnok
                simpa only [drainPass, haq, if_true, hn] using h3
          | exception =>
              have hstep : ∀ u ∈ rest, u.status = TxStatus.queued →
                  u ∈ markStatus (markStatus s a.id .processing) a.id .failed := by
                intro u hu huq
                have hune : u.id ≠ a.id := by
                  intro he
                  exact ha_not (he ▸ List.mem_map_of_mem (fun t => t.id) hu)
                exact mem_markStatus_of_ne _ a.id .failed u
                  (mem_markStatus_of_ne s a.id .processing u
                    (hin u (List.mem_cons_of_mem a hu) huq) hune) hune
              have := ih _ hrest_nodup hstep t htrest htq
              constructor
              · intro hok r hr
                refine (this.1 hok) r ?_
                simpa only [drainPass, haq, if_true, hn] using hr
              · intro hnok
                have h3 := this.2 hnok
                simpa only [drainPass, haq, if_true, hn] using h3
        · -- the head is skipped; the state is unchanged
          have hstep : ∀ u ∈ rest, u.status = TxStatus.queued → u ∈ s :=
            fun u hu huq => hin u (List.mem_cons_of_mem a hu) huq
          have := ih s hrest_nodup hstep t htrest htq
          constructor
          · intro hok r hr
            refine (this.1 hok) r ?_
            simpa only [drainPass, haq, if_false] using hr
          · intro hnok
            have h3 := this.2 hnok
            simpa only [drainPass, haq, if_false] using h3

/-! ### Claim theorems -/

/-- C1.  The claim says a `failed` webhook callback for a previously
debited transaction credits the wallet back and marks the transaction
`failed`.  The handler instead looks the reference up in
`getTransactions("", 1000)`, which filters on `userId = ""`; for every
state in which no transaction belongs to the empty user id — i.e. for
every real user — the webhook finds no match and changes nothing. -/
theorem webhook_is_noop_when_no_transaction_has_empty_userId (s : ServerState)
    (transaction_reference transaction_status : String)
    (h : ∀ t ∈ s.transactions, t.userId ≠ "") :
    squadWebhook s transaction_reference transaction_status
      = ⟨s, 200, "Webhook processed"⟩ := by
  have hfilter : (s.transactions.filter fun t => t.userId == "") = [] := by
    apply List.filter_eq_nil_iff.mpr
    intro t ht
    simp [h t ht]
  have hget : DatabaseStorage.getTransactions s "" 1000 = [] := by
    unfold DatabaseStorage.getTransactions
    rw [hfilter]
    rfl
  simp [squadWebhook, hget]

/-- C1 witness: the debited pending transaction of `exampleServerState`
carries reference `SQ_1`; posting a `failed` callback for it leaves the
state — wallet balance `1000` and status `pending` — unchanged, where the
claim demands balance `1500` and status `failed`. -/
theorem webhook_is_noop_when_no_transaction_has_empty_userId_witness :
    (∀ t ∈ exampleServerState.transactions, t.userId ≠ "") ∧
    squadWebhook exampleServerState "SQ_1" "failed"
      = ⟨exampleServerState, 200, "Webhook processed"⟩ :=
  ⟨by decide,
   webhook_is_noop_when_no_transaction_has_empty_userId exampleServerState
     "SQ_1" "failed" (by decide)⟩

/-- C2.  The claim says an offline non-GET to a transfer endpoint is
queued and answered with the synthetic 202 body.  But
`NON_CACHEABLE_ENDPOINTS` itself contains `"/api/transfer/"`, so the
queueing branch's guard `pathname.startsWith('/api/transfer/') &&
!isNonCacheable` is false for every transfer path: the worker queues
nothing and returns the 503 hard-failure response. -/
theorem transfer_write_offline_returns_503_and_queues_nothing
    (pathname method body : String) (now : Nat) (freshId : String)
    (queue : List SWQueueRecord)
    (h : strStartsWith pathname "/api/transfer/" = true) :
    handleAPIRequest pathname method body none now freshId queue
      = ⟨⟨503, .obj networkUnavailableBody⟩, queue⟩ := by
  have hnc := transferPrefix_isNonCacheable pathname h
  simp [handleAPIRequest, hnc]

/-- C2 witness: an offline POST to `/api/transfer/bank` yields the 503
response and an unchanged (empty) queue, where the claim demands a 202
response and a persisted record. -/
theorem transfer_write_offline_returns_503_and_queues_nothing_witness :
    strStartsWith "/api/transfer/bank" "/api/transfer/" = true ∧
    handleAPIRequest "/api/transfer/bank" "POST" "bankTransferBody" none
        1000 "sw_1000_abc" []
      = ⟨⟨503, RespBody.obj networkUnavailableBody⟩, []⟩ :=
  ⟨by decide,
   transfer_write_offline_returns_503_and_queues_nothing "/api/transfer/bank"
     "POST" "bankTransferBody" 1000 "sw_1000_abc" [] (by decide)⟩

/-- C3.  A webhook callback whose reference matches no existing
transaction changes no state and is answered 200. -/
theorem webhook_unknown_reference_is_accepted_noop (s : ServerState)
    (transaction_reference transaction_status : String)
    (h : ∀ t ∈ s.transactions, t.squadReference ≠ some transaction_reference) :
    squadWebhook s transaction_reference transaction_status
      = ⟨s, 200, "Webhook processed"⟩ := by
  have hfind : (DatabaseStorage.getTransactions s "" 1000).find?
      (fun t => t.squadReference == some transaction_reference) = none := by
    apply List.find?_eq_none.mpr
    intro t ht
    unfold DatabaseStorage.getTransactions at ht
    have h1 := (List.take_sublist _ _).subset ht
    have h2 := (List.perm_insertionSort createdDesc _).subset h1
    have hmem : t ∈ s.transactions := (List.mem_filter.mp h2).1
    simpa using h t hmem
  simp [squadWebhook, hfind]

/-- C3 witness: a callback for the unknown reference `SQ_UNSEEN` leaves
`exampleServerState` unchanged and is answered 200. -/
theorem webhook_unknown_reference_is_accepted_noop_witness :
    (∀ t ∈ exampleServerState.transactions, t.squadReference ≠ some "SQ_UNSEEN") ∧
    squadWebhook exampleServerState "SQ_UNSEEN" "failed"
      = ⟨exampleServerState, 200, "Webhook processed"⟩ :=
  ⟨by decide,
   webhook_unknown_reference_is_accepted_noop exampleServerState "SQ_UNSEEN"
     "failed" (by decide)⟩

/-- C4.  An offline non-GET to any endpoint marked non-cacheable is never
queued and always answered with the 503 hard-failure response. -/
theorem nonCacheable_write_offline_hard_failure_never_queued
    (pathname method body : String) (now : Nat) (freshId : String)
    (queue : List SWQueueRecord)
    (h : isNonCacheableEndpoint pathname = true) :
    handleAPIRequest pathname method body none now freshId queue
      = ⟨⟨503, .obj networkUnavailableBody⟩, queue⟩ := by
  simp [handleAPIRequest, h]

/-- C4 witness: an offline login POST returns 503 with nothing queued. -/
theorem nonCacheable_write_offline_hard_failure_never_queued_witness :
    isNonCacheableEndpoint "/api/auth/login" = true ∧
    handleAPIRequest "/api/auth/login" "POST" "credentials" none 7 "sw_7_x" []
      = ⟨⟨503, RespBody.obj networkUnavailableBody⟩, []⟩ :=
  ⟨by decide,
   nonCacheable_write_offline_hard_failure_never_queued "/api/auth/login"
     "POST" "credentials" 7 "sw_7_x" [] (by decide)⟩

/-- C5.  A GET to a cacheable endpoint whose cached entry carries an
`sw-cache-date` less than 5 minutes old is served from the cache with no
network fetch, whatever the network would have answered. -/
theorem cacheable_get_fresh_hit_skips_network (pathname : String)
    (e : CachedEntry) (d now : Nat) (network : Option SWResponse)
    (hc : isCacheableEndpoint pathname = true)
    (hd : e.swCacheDate = some d)
    (hfresh : (now : Int) - (d : Int) < 5 * 60 * 1000) :
    handleAPIGet pathname (some e) now network = ⟨e.resp, false, some e⟩ := by
  have hf : cacheFresh e now = true := by
    simp only [cacheFresh, hd, decide_eq_true_eq]
    omega
  simp [handleAPIGet, hc, hf]

/-- C5 witness: a wallet read with a 100-second-old cache entry is served
from the cache without touching the (unreachable) network. -/
theorem cacheable_get_fresh_hit_skips_network_witness :
    isCacheableEndpoint "/api/wallet" = true ∧
    (⟨⟨200, RespBody.upstream "walletJson"⟩, some 100000⟩ :
        CachedEntry).swCacheDate = some 100000 ∧
    ((200000 : Int) - (100000 : Int) < 5 * 60 * 1000) ∧
    handleAPIGet "/api/wallet"
        (some ⟨⟨200, RespBody.upstream "walletJson"⟩, some 100000⟩) 200000 none
      = ⟨⟨200, RespBody.upstream "walletJson"⟩, false,
         some ⟨⟨200, RespBody.upstream "walletJson"⟩, some 100000⟩⟩ :=
  ⟨by decide, rfl, by decide,
   cacheable_get_fresh_hit_skips_network "/api/wallet"
     ⟨⟨200, RespBody.upstream "walletJson"⟩, some 100000⟩ 100000 200000 none
     (by decide) rfl (by decide)⟩

/-- C6 counterexample.  The claim says `list` never throws and returns
the empty list on store-open failure; `getOfflineTransactions` in fact
rejects with an error there — it does not return `ok []`. -/
theorem list_on_unopenable_store_rejects :
    OfflineStorage.getOfflineTransactions StoreState.unavailable "u-1"
        = Except.error "Failed to open IndexedDB" ∧
      OfflineStorage.getOfflineTransactions StoreState.unavailable "u-1"
        ≠ Except.ok [] :=
  ⟨rfl, fun h => nomatch h⟩

/-- C6 amended: when the store opens, `list` returns all of the user's
records ordered newest-first; when the store cannot be opened it rejects
with an error (the calling hook catches and logs it, leaving its previous
in-memory list unchanged) rather than returning the empty list. -/
theorem list_sorted_newest_first_or_rejects (records : List StoredTransaction)
    (mem : List OfflineTransaction) (userId : String) :
    (∃ l, OfflineStorage.getOfflineTransactions (.available records) userId = .ok l ∧
        List.Sorted tsGE l ∧
        List.Perm l ((records.filter fun r => r.userId == userId).map stripUserId)) ∧
    OfflineStorage.getOfflineTransactions .unavailable userId
        = .error "Failed to open IndexedDB" ∧
    loadQueuedTransactions .unavailable mem userId = mem := by
  refine ⟨⟨_, rfl, ?_, ?_⟩, rfl, rfl⟩
  · exact List.sorted_insertionSort tsGE _
  · exact List.perm_insertionSort tsGE _

/-- C7.  One drain pass attempts exactly the records that are in state
`queued`, in enqueue order, whatever each attempt's outcome is; a record
whose submission succeeds is deleted; a record whose submission fails is
merely re-marked `failed` (so a failure never prevents later attempts);
records not in state `queued` are untouched. -/
theorem drain_replays_each_queued_record_independently
    (net : OfflineTransaction → NetOutcome) (mem : List OfflineTransaction)
    (hids : (mem.map fun t => t.id).Nodup) :
    (processQueuedTransactions net mem).2
        = mem.filter (fun t => t.status == TxStatus.queued) ∧
    (∀ t ∈ mem, t.status = TxStatus.queued → net t = .ok →
        ∀ r ∈ (processQueuedTransactions net mem).1, r.id ≠ t.id) ∧
    (∀ t ∈ mem, t.status = TxStatus.queued → net t ≠ .ok →
        { t with status := TxStatus.failed } ∈ (processQueuedTransactions net mem).1) ∧
    (∀ t ∈ mem, t.status ≠ TxStatus.queued → t ∈ (processQueuedTransactions net mem).1) := by
  have hmain := drainPass_outcomes net mem mem hids (fun t ht _ => ht)
  refine ⟨drainPass_attempts net mem mem, ?_, ?_, ?_⟩
  · exact fun t ht htq hok => (hmain t ht htq).1 hok
  · exact fun t ht htq hnok => (hmain t ht htq).2 hnok
  · intro t ht htnq
    refine mem_drainPass_of_untargeted net mem mem t ht ?_
    intro u hu huq hue
    have hut := List.inj_on_of_nodup_map hids hu ht hue
    exact htnq (hut ▸ huq)

/-- C7 witness: three queued records drain against a network that fails
the second one — all three are attempted in order, the first and third
are deleted, the second is re-marked `failed`. -/
theorem drain_replays_each_queued_record_independently_witness :
    ((exampleQueue.map fun t => t.id).Nodup) ∧
    ((processQueuedTransactions exampleNet exampleQueue).2
        = exampleQueue.filter (fun t => t.status == TxStatus.queued) ∧
      (∀ t ∈ exampleQueue, t.status = TxStatus.queued → exampleNet t = .ok →
          ∀ r ∈ (processQueuedTransactions exampleNet exampleQueue).1, r.id ≠ t.id) ∧
      (∀ t ∈ exampleQueue, t.status = TxStatus.queued → exampleNet t ≠ .ok →
          { t with status := TxStatus.failed }
            ∈ (processQueuedTransactions exampleNet exampleQueue).1) ∧
      (∀ t ∈ exampleQueue, t.status ≠ TxStatus.queued →
          t ∈ (processQueuedTransactions exampleNet exampleQueue).1)) :=
  ⟨by decide,
   drain_replays_each_queued_record_independently exampleNet exampleQueue
     (by decide)⟩

/-- C8.  Enqueueing a fresh record and then listing the user's queue
yields a list containing a record with the same type, amount and
recipient details and the freshly assigned id. -/
theorem enqueue_then_list_contains_the_record (records : List StoredTransaction)
    (mem : List OfflineTransaction) (userId : String)
    (input : NewTransactionInput) (freshId : String) (now : Nat)
    (hfresh : ∀ r ∈ records, r.id ≠ freshId) :
    ∃ l, OfflineStorage.getOfflineTransactions
        (addTransactionToQueue (.available records) mem userId input freshId now).1
        userId = .ok l ∧
      ∃ r, r ∈ l ∧ r.type = input.type ∧ r.amount = input.amount ∧
        r.recipientDetails = input.recipientDetails ∧ r.id = freshId := by
  have hany : records.any
      (fun r => r.id == (mkQueuedTransaction input freshId now).id) = false := by
    rw [List.any_eq_false]
    intro r hr
    simp [mkQueuedTransaction, hfresh r hr]
  have hstep : addTransactionToQueue (.available records) mem userId input freshId now
      = (.available
          (records ++ [withUserId (mkQueuedTransaction input freshId now) userId]),
         mem ++ [mkQueuedTransaction input freshId now]) := by
    simp [addTransactionToQueue, OfflineStorage.addOfflineTransaction, hany]
  rw [hstep]
  refine ⟨_, rfl, mkQueuedTransaction input freshId now, ?_, rfl, rfl, rfl, rfl⟩
  apply (List.perm_insertionSort tsGE _).mem_iff.mpr
  apply List.mem_map.mpr
  refine ⟨withUserId (mkQueuedTransaction input freshId now) userId, ?_, rfl⟩
  apply List.mem_filter.mpr
  exact ⟨List.mem_append_right _ (List.mem_singleton_self _), by simp [withUserId]⟩

/-- C8 witness: enqueueing a bank transfer with fresh id `offline_1_a`
onto a store already holding one row round-trips through `list`. -/
theorem enqueue_then_list_contains_the_record_witness :
    (∀ r ∈ exampleStoreRows, r.id ≠ "offline_1_a") ∧
    (∃ l, OfflineStorage.getOfflineTransactions
        (addTransactionToQueue (.available exampleStoreRows) [] "u-1"
          exampleInput "offline_1_a" 5).1 "u-1" = .ok l ∧
      ∃ r, r ∈ l ∧ r.type = exampleInput.type ∧ r.amount = exampleInput.amount ∧
        r.recipientDetails = exampleInput.recipientDetails ∧ r.id = "offline_1_a") :=
  ⟨by decide,
   enqueue_then_list_contains_the_record exampleStoreRows [] "u-1" exampleInput
     "offline_1_a" 5 (by decide)⟩

/-- C10.  `store.add` rejects a record whose id is already present, so
enqueue fails with an error and never overwrites the existing row (the
error branch leaves the store untouched). -/
theorem enqueue_existing_id_rejected (records : List StoredTransaction)
    (userId : String) (t : OfflineTransaction) (r0 : StoredTransaction)
    (hr0 : r0 ∈ records) (hid : r0.id = t.id) :
    OfflineStorage.addOfflineTransaction (.available records) userId t
      = .error "Failed to add offline transaction" := by
  have hany : records.any (fun r => r.id == t.id) = true :=
    List.any_eq_true.mpr ⟨r0, hr0, by simp [hid]⟩
  simp [OfflineStorage.addOfflineTransaction, hany]

/-- C10 witness: re-enqueueing a record with the already-present id
`offline_0_z` is rejected. -/
theorem enqueue_existing_id_rejected_witness :
    (⟨"offline_0_z", .airtime, "100", "data bundle", "phone-0", none, 1,
        .queued, "u-1"⟩ : StoredTransaction) ∈ exampleStoreRows ∧
    OfflineStorage.addOfflineTransaction (.available exampleStoreRows) "u-1"
        ⟨"offline_0_z", .bank_transfer, "900", "rent", "acct-9", none, 8, .queued⟩
      = .error "Failed to add offline transaction" :=
  ⟨by decide,
   enqueue_existing_id_rejected exampleStoreRows "u-1"
     ⟨"offline_0_z", .bank_transfer, "900", "rent", "acct-9", none, 8, .queued⟩
     ⟨"offline_0_z", .airtime, "100", "data bundle", "phone-0", none, 1,
        .queued, "u-1"⟩
     (by decide) rfl⟩

/-- C9 counterexample.  The claimed transition discipline admits only
queued→processing, processing→deleted, processing→failed and
failed→queued, but `retryFailedTransaction` re-marks the named record
`queued` without inspecting its prior status: applied to a record in
state `processing` it performs a processing→queued transition, which
`specQueueStep` rejects. -/
theorem retry_reverts_a_processing_record_to_queued :
    retryFailedTransaction [exampleProcessing] "offline_9_p"
      = [{ exampleProcessing with status := TxStatus.queued }] ∧
    specQueueStep TxStatus.processing (some TxStatus.queued) = false :=
  ⟨by decide, by decide⟩

/-- C9 amended: ids stay unique and statuses stay disciplined, except
that retry re-marks the named record `queued` whatever its prior status
(failed→queued, but also processing→queued) and explicit removal deletes
the named record whatever its status.  In detail: enqueue rejects a
duplicate id (store ids stay unique) and only ever appends a `queued`
record; one drain pass keeps ids unique, leaves non-`queued` records
untouched, deletes a `queued` record whose submission succeeds and
re-marks one whose submission fails `failed`; retry keeps ids unchanged
and touches only the named record; removal deletes exactly the records
with the named id. -/
theorem queue_ops_keep_ids_unique_and_statuses_disciplined
    (records : List StoredTransaction) (mem : List OfflineTransaction)
    (userId : String) (input : NewTransactionInput) (freshId : String)
    (now : Nat) (i : String) (net : OfflineTransaction → NetOutcome)
    (hrecs : (records.map fun r => r.id).Nodup)
    (hmem : (mem.map fun t => t.id).Nodup) :
    (∀ records1, OfflineStorage.addOfflineTransaction (.available records) userId
          (mkQueuedTransaction input freshId now) = .ok (.available records1) →
        (records1.map fun r => r.id).Nodup) ∧
    (∀ r ∈ (addTransactionToQueue (.available records) mem userId input freshId now).2,
        r ∈ mem ∨ r.status = TxStatus.queued) ∧
    (((processQueuedTransactions net mem).1.map fun t => t.id).Nodup ∧
      (∀ t ∈ mem, t.status ≠ TxStatus.queued →
          t ∈ (processQueuedTransactions net mem).1) ∧
      (∀ t ∈ mem, t.status = TxStatus.queued → net t = .ok →
          ∀ r ∈ (processQueuedTransactions net mem).1, r.id ≠ t.id) ∧
      (∀ t ∈ mem, t.status = TxStatus.queued → net t ≠ .ok →
          { t with status := TxStatus.failed }
            ∈ (processQueuedTransactions net mem).1)) ∧
    (((retryFailedTransaction mem i).map fun t => t.id) = mem.map fun t => t.id) ∧
    (∀ t ∈ mem, t.id ≠ i → t ∈ retryFailedTransaction mem i) ∧
    (∀ t ∈ mem, t.id = i →
        { t with status := TxStatus.queued } ∈ retryFailedTransaction mem i) ∧
    (((removeTransaction (.available records) mem i).2.map fun t => t.id).Nodup ∧
      (∀ t ∈ mem, t.id ≠ i → t ∈ (removeTransaction (.available records) mem i).2) ∧
      (∀ t ∈ (removeTransaction (.available records) mem i).2,
          t ∈ mem ∧ t.id ≠ i)) := by
  have hrm : (removeTransaction (.available records) mem i).2 = removeById mem i := rfl
  have hretry : retryFailedTransaction mem i = markStatus mem i TxStatus.queued := rfl
  refine ⟨?_, ?_, ⟨?_, ?_, ?_, ?_⟩, ?_, ?_, ?_, ⟨?_, ?_, ?_⟩⟩
  · -- enqueue keeps store ids unique
    intro records1 hok
    unfold OfflineStorage.addOfflineTransaction at hok
    cases hany : records.any
        (fun r => r.id == (mkQueuedTransaction input freshId now).id) with
    | true => simp [hany] at hok
    | false =>
        simp only [hany, Bool.false_eq_true, if_false, Except.ok.injEq,
          StoreState.available.injEq] at hok
        subst hok
        rw [List.map_append]
        apply List.Nodup.append hrecs (List.nodup_singleton _)
        intro a ha hb
        rw [List.mem_singleton] at hb
        obtain ⟨r, hr, hrid⟩ := List.mem_map.mp ha
        have hfalse := (List.any_eq_false.mp hany) r hr
        apply hfalse
        simp only [mkQueuedTransaction, withUserId] at hb ⊢
        rw [hrid, hb]
        exact beq_self_eq_true _
  · -- enqueue only appends a queued record to memory
    intro r hr
    simp only [addTransactionToQueue] at hr
    cases h : OfflineStorage.addOfflineTransaction (.available records) userId
        (mkQueuedTransaction input freshId now) with
    | ok s1 =>
        rw [h] at hr
        simp only [List.mem_append, List.mem_singleton] at hr
        rcases hr with h1 | h1
        · exact Or.inl h1
        · exact Or.inr (by rw [h1]; rfl)
    | error e =>
        rw [h] at hr
        exact Or.inl hr
  · -- drain keeps ids unique
    exact drainPass_ids_nodup net mem mem hmem
  · -- drain leaves non-queued records untouched
    intro t ht htnq
    refine mem_drainPass_of_untargeted net mem mem t ht ?_
    intro u hu huq hue
    have hut := List.inj_on_of_nodup_map hmem hu ht hue
    exact htnq (hut ▸ huq)
  · -- drain deletes a queued record that submits successfully
    exact fun t ht htq hok =>
      (drainPass_outcomes net mem mem hmem (fun t ht _ => ht) t ht htq).1 hok
  · -- drain re-marks a queued record whose submission fails
    exact fun t ht htq hnok =>
      (drainPass_outcomes net mem mem hmem (fun t ht _ => ht) t ht htq).2 hnok
  · -- retry keeps the ids unchanged
    rw [hretry]
    exact markStatus_map_id mem i TxStatus.queued
  · -- retry leaves other records untouched
    intro t ht hne
    rw [hretry]
    exact mem_markStatus_of_ne mem i TxStatus.queued t ht hne
  · -- retry re-marks the named record queued
    intro t ht he
    rw [hretry, ← he]
    exact self_mem_markStatus mem t ht TxStatus.queued
  · -- removal keeps ids unique
    rw [hrm]
    exact (removeById_map_id_sublist mem i).nodup hmem
  · -- removal leaves other records untouched
    intro t ht hne
    rw [hrm]
    exact mem_removeById mem i t ht hne
  · -- removal deletes only records with the named id
    intro t ht
    rw [hrm] at ht
    exact removeById_spec mem i t ht

/-- C9 witness: the amended discipline instantiated on a store with one
row, a memory queue holding one `processing` record, and a retry/removal
targeting that record. -/
theorem queue_ops_keep_ids_unique_and_statuses_disciplined_witness :
    ((exampleStoreRows.map fun r => r.id).Nodup ∧
      (([exampleProcessing].map fun t => t.id).Nodup)) ∧
    ((∀ records1, OfflineStorage.addOfflineTransaction (.available exampleStoreRows)
          "u-1" (mkQueuedTransaction exampleInput "offline_7_f" 9)
          = .ok (.available records1) → (records1.map fun r => r.id).Nodup) ∧
    (∀ r ∈ (addTransactionToQueue (.available exampleStoreRows) [exampleProcessing]
          "u-1" exampleInput "offline_7_f" 9).2,
        r ∈ [exampleProcessing] ∨ r.status = TxStatus.queued) ∧
    (((processQueuedTransactions exampleNet [exampleProcessing]).1.map
          fun t => t.id).Nodup ∧
      (∀ t ∈ [exampleProcessing], t.status ≠ TxStatus.queued →
          t ∈ (processQueuedTransactions exampleNet [exampleProcessing]).1) ∧
      (∀ t ∈ [exampleProcessing], t.status = TxStatus.queued → exampleNet t = .ok →
          ∀ r ∈ (processQueuedTransactions exampleNet [exampleProcessing]).1,
            r.id ≠ t.id) ∧
      (∀ t ∈ [exampleProcessing], t.status = TxStatus.queued → exampleNet t ≠ .ok →
          { t with status := TxStatus.failed }
            ∈ (processQueuedTransactions exampleNet [exampleProcessing]).1)) ∧
    (((retryFailedTransaction [exampleProcessing] "offline_9_p").map
        fun t => t.id) = [exampleProcessing].map fun t => t.id) ∧
    (∀ t ∈ [exampleProcessing], t.id ≠ "offline_9_p" →
        t ∈ retryFailedTransaction [exampleProcessing] "offline_9_p") ∧
    (∀ t ∈ [exampleProcessing], t.id = "offline_9_p" →
        { t with status := TxStatus.queued }
          ∈ retryFailedTransaction [exampleProcessing] "offline_9_p") ∧
    (((removeTransaction (.available exampleStoreRows) [exampleProcessing]
          "offline_9_p").2.map fun t => t.id).Nodup ∧
      (∀ t ∈ [exampleProcessing], t.id ≠ "offline_9_p" →
          t ∈ (removeTransaction (.available exampleStoreRows) [exampleProcessing]
            "offline_9_p").2) ∧
      (∀ t ∈ (removeTransaction (.available exampleStoreRows) [exampleProcessing]
            "offline_9_p").2, t ∈ [exampleProcessing] ∧ t.id ≠ "offline_9_p"))) :=
  ⟨⟨by decide, by decide⟩,
   queue_ops_keep_ids_unique_and_statuses_disciplined exampleStoreRows
     [exampleProcessing] "u-1" exampleInput "offline_7_f" 9 "offline_9_p"
     exampleNet (by decide) (by decide)⟩

end FinXchange
